import Mathlib

/-!
Verification of the SCRIP grid-description subsystem of MPAS-Analysis
(mpas_analysis/shared/grid/grid.py), shallowly embedded over exact
rationals.  Arrays become lists of rationals, numpy fancy indexing with
negative wrap-around becomes npGet, and vectorized operations that may
raise become Option-valued maps with failure propagation.
-/

namespace MpasGrid

/-- Numpy-style 1-D indexing: a negative index i counts from the end
(wraps to length + i); any index that falls outside the array raises,
modelled as none. -/
def npGet {α : Type} (a : List α) (i : Int) : Option α :=
  let j : Int := if i < 0 then (a.length : Int) + i else i
  if 0 ≤ j then a[j.toNat]? else none

/-- Vectorized application of a fallible elementwise operation: one
failure anywhere aborts the whole batch (numpy raises on the array op). -/
def mapOption {α β : Type} (f : α → Option β) : List α → Option (List β)
  | [] => some []
  | a :: as => do
    let b ← f a
    let bs ← mapOption f as
    return (b :: bs)

/-- Embedding of the helper interp_extrap_corner of grid.py: midpoints in
the interior, linear extrapolation at both ends (outField has length
len(inField)+1; outField[1:-1] = 0.5*(inField[0:-1]+inField[1:]);
outField[0] = 1.5*inField[0]-0.5*inField[1];
outField[-1] = 1.5*inField[-1]-0.5*inField[-2]). -/
def interp_extrap_corner (inField : List ℚ) : List ℚ :=
  let n := inField.length
  (List.range (n + 1)).map (fun i =>
    if i = 0 then 3/2 * inField.getD 0 0 - 1/2 * inField.getD 1 0
    else if i = n then
      3/2 * inField.getD (n - 1) 0 - 1/2 * inField.getD (n - 2) 0
    else 1/2 * (inField.getD (i - 1) 0 + inField.getD i 0))

/-- Embedding of the helper unwrap_corners of grid.py: the (m-1)x(n-1)
interior slices are flattened row-major; element q of the flat order is
row q / (n-1), column q % (n-1), and its four corner entries are
inField[r][c], inField[r][c+1], inField[r+1][c+1], inField[r+1][c]
(counterclockwise). -/
def unwrap_corners (inField : List (List ℚ)) : List (List ℚ) :=
  let m := inField.length
  let n := (inField.getD 0 []).length
  (List.range ((m - 1) * (n - 1))).map (fun q =>
    let r := q / (n - 1)
    let c := q % (n - 1)
    [(inField.getD r []).getD c 0,
     (inField.getD r []).getD (c + 1) 0,
     (inField.getD (r + 1) []).getD (c + 1) 0,
     (inField.getD (r + 1) []).getD c 0])

/-- The value stored into a netCDF attribute: the code stores either a
plain string or a raw Python list of strings. -/
inductive AttrValue : Type
  | str (s : String)
  | strList (l : List String)
deriving DecidableEq, Inhabited

/-- Embedding of the history-attribute update shared by
MpasMeshDescriptor.to_scrip, LatLonGridDescriptor.read and
ProjectionGridDescriptor.read: if the source has a history attribute, the
new value is the old text, a newline, and the space-joined argv; otherwise
the code stores sys.argv[:] itself, which is the raw list of arguments,
not a joined string. -/
def new_history (srcHistory : Option String) (argv : List String) : AttrValue :=
  match srcHistory with
  | some h => AttrValue.str (String.intercalate "\n" [h, String.intercalate " " argv])
  | none => AttrValue.strList argv

/-- Embedding of one (cell, position) step of the corner loop of
MpasMeshDescriptor.to_scrip: localVertexIndices = min(nEdgesOnCell-1,
iVertex); vertexIndices = verticesOnCell[cell, local] - 1; then the lat
and lon arrays are indexed at that (possibly negative) position. -/
def reconstruct_corner (latVertex lonVertex : List ℚ) (cellVertices : List Int)
    (nEdges : Int) (p : Nat) : Option (ℚ × ℚ) := do
  let vid ← npGet cellVertices (min (nEdges - 1) (p : Int))
  let lat ← npGet latVertex (vid - 1)
  let lon ← npGet lonVertex (vid - 1)
  return (lat, lon)

/-- The MPAS mesh topology read by MpasMeshDescriptor.to_scrip.  nCells is
the length of the per-cell arrays; maxVertices is the length of the
maxEdges dimension (each row of verticesOnCell). -/
structure MpasMesh : Type where
  latCell : List ℚ
  lonCell : List ℚ
  latVertex : List ℚ
  lonVertex : List ℚ
  verticesOnCell : List (List Int)
  nEdgesOnCell : List Int
  maxVertices : Nat
  areaCell : List ℚ
  sphereRadius : ℚ
  history : Option String
deriving DecidableEq, Inhabited

/-- The contents of a written SCRIP file: dimensions, the units attribute
of each variable created by create_scrip, the data written by the three
to_scrip methods, and the history attribute. -/
structure ScripFile : Type where
  grid_size : Nat
  grid_corners : Nat
  grid_rank : Nat
  center_lat_units : String
  center_lon_units : String
  corner_lat_units : String
  corner_lon_units : String
  imask_units : String
  center_lat : List ℚ
  center_lon : List ℚ
  corner_lat : List (List ℚ)
  corner_lon : List (List ℚ)
  imask : List Int
  dims : List Nat
  grid_area : Option (List ℚ)
  area_units : Option String
  history : AttrValue
deriving DecidableEq, Inhabited

/-- Embedding of the helper create_scrip of grid.py: creates the three
dimensions and the common variables, giving the four center and corner
coordinate variables the same units argument and grid_imask the units
unitless.  Data is filled in later by the callers. -/
def create_scrip (grid_size grid_corners grid_rank : Nat) (units : String) :
    ScripFile :=
  { grid_size := grid_size
    grid_corners := grid_corners
    grid_rank := grid_rank
    center_lat_units := units
    center_lon_units := units
    corner_lat_units := units
    corner_lon_units := units
    imask_units := "unitless"
    center_lat := []
    center_lon := []
    corner_lat := []
    corner_lon := []
    imask := []
    dims := []
    grid_area := none
    area_units := none
    history := AttrValue.strList [] }

/-- Embedding of MpasMeshDescriptor.to_scrip: create_scrip with
grid_corners = maxVertices, grid_rank 1 and units radians; grid_area =
areaCell / sphereRadius^2; centers copied from the cell arrays; dims =
[nCells]; imask all ones; corners rebuilt per cell and position by
reconstruct_corner; history updated from the source file and argv. -/
def mesh_to_scrip (m : MpasMesh) (argv : List String) : Option ScripFile := do
  let nCells := m.latCell.length
  let corners ← mapOption (fun cell =>
      mapOption (fun p =>
          reconstruct_corner m.latVertex m.lonVertex
            (m.verticesOnCell.getD cell []) (m.nEdgesOnCell.getD cell 0) p)
        (List.range m.maxVertices))
    (List.range nCells)
  return { create_scrip nCells m.maxVertices 1 "radians" with
    grid_area := some (m.areaCell.map (fun a => a / m.sphereRadius ^ 2))
    area_units := some "radian^2"
    center_lat := m.latCell
    center_lon := m.lonCell
    dims := [nCells]
    imask := List.replicate nCells 1
    corner_lat := corners.map (fun row => row.map Prod.fst)
    corner_lon := corners.map (fun row => row.map Prod.snd)
    history := new_history m.history argv }

/-- A mesh with one square cell used as a concrete witness input. -/
def areaMesh : MpasMesh :=
  { latCell := [0]
    lonCell := [0]
    latVertex := [1, 2, 3, 4]
    lonVertex := [5, 6, 7, 8]
    verticesOnCell := [[1, 2, 3, 4]]
    nEdgesOnCell := [4]
    maxVertices := 4
    areaCell := [100]
    sphereRadius := 10
    history := none }

/-- A mesh whose single cell lists the invalid vertex id 0 at local
position 1 (valid ids here are 1 and 2). -/
def zeroIdMesh : MpasMesh :=
  { latCell := [0]
    lonCell := [0]
    latVertex := [10, 20]
    lonVertex := [30, 40]
    verticesOnCell := [[1, 0, 2]]
    nEdgesOnCell := [3]
    maxVertices := 3
    areaCell := [1]
    sphereRadius := 1
    history := none }

/-- Embedding of numpy.meshgrid(xs, ys): returns (X, Y), both of shape
(len ys, len xs), with X[i][j] = xs[j] and Y[i][j] = ys[i]. -/
def meshgrid (xs ys : List ℚ) : List (List ℚ) × List (List ℚ) :=
  (ys.map (fun _ => xs), ys.map (fun y => xs.map (fun _ => y)))

/-- The state of a LatLonGridDescriptor after read or create: centers,
derived corners, the units tag and the history value. -/
structure LatLonGridDescriptor : Type where
  lat : List ℚ
  lon : List ℚ
  latCorner : List ℚ
  lonCorner : List ℚ
  units : String
  history : AttrValue
deriving DecidableEq, Inhabited

/-- Substring test on character lists, the Python expression
needle in hay: true when needle occurs contiguously inside hay. -/
def strContains (needle : List Char) : List Char → Bool
  | [] => needle.isEmpty
  | c :: rest => needle.isPrefixOf (c :: rest) || strContains needle rest

/-- Embedding of LatLonGridDescriptor.read: stores the centers, sets the
units tag to degrees exactly when the latitude variable units string
contains the substring degree (the longitude units string is not
consulted), derives the corners with interp_extrap_corner, and sets the
history value from the source attributes and argv. -/
def latlon_read (lat lon : List ℚ) (latUnits lonUnits : String)
    (srcHistory : Option String) (argv : List String) : LatLonGridDescriptor :=
  { lat := lat
    lon := lon
    latCorner := interp_extrap_corner lat
    lonCorner := interp_extrap_corner lon
    units := if strContains "degree".toList latUnits.toList then "degrees"
             else "radians"
    history := new_history srcHistory argv }

/-- Embedding of LatLonGridDescriptor.to_scrip: create_scrip with
grid_size = nLat*nLon, 4 corners, rank 2 and the descriptor units;
centers via meshgrid flattened row-major; dims = [nLon, nLat]; imask all
ones; corners via meshgrid of the corner axes and unwrap_corners. -/
def LatLonGridDescriptor.to_scrip (d : LatLonGridDescriptor) : ScripFile :=
  let nLat := d.lat.length
  let nLon := d.lon.length
  let c := meshgrid d.lon d.lat
  let cc := meshgrid d.lonCorner d.latCorner
  { create_scrip (nLat * nLon) 4 2 d.units with
    center_lat := c.2.flatten
    center_lon := c.1.flatten
    dims := [nLon, nLat]
    imask := List.replicate (nLat * nLon) 1
    corner_lat := unwrap_corners cc.2
    corner_lon := unwrap_corners cc.1
    history := d.history }

/-- Modelled from the spec: the pyproj.transform collaborator is not part
of this repository; per the spec it maps each planar (x, y) point to its
geographic (lon, lat) and fails on points outside the projection domain.
The wrapper method ProjectionGridDescriptor.project_to_lat_lon applies
one such transform over a whole 2D batch, preserving shape, and returns
(Lat, Lon) with the components swapped from the (Lon, Lat) order that
pyproj.transform returns; a failure anywhere aborts the whole call. -/
def project_to_lat_lon (transform : ℚ → ℚ → Option (ℚ × ℚ))
    (X Y : List (List ℚ)) : Option (List (List ℚ) × List (List ℚ)) := do
  let lonLat ← mapOption (fun rowPair =>
      mapOption (fun p => transform p.1 p.2) (rowPair.1.zip rowPair.2))
    (X.zip Y)
  return (lonLat.map (fun row => row.map Prod.snd),
          lonLat.map (fun row => row.map Prod.fst))

/-- Embedding of ProjectionGridDescriptor.to_scrip: create_scrip with
grid_size = nx*ny, 4 corners, rank 2 and units degrees; centers and
corners obtained by projecting the meshgrid lattices to lat-lon; dims =
[nx, ny]; imask all ones; corners unwrapped counterclockwise. -/
def proj_to_scrip (transform : ℚ → ℚ → Option (ℚ × ℚ))
    (x y xCorner yCorner : List ℚ) (history : AttrValue) : Option ScripFile := do
  let nx := x.length
  let ny := y.length
  let c := meshgrid x y
  let cc := meshgrid xCorner yCorner
  let latLon ← project_to_lat_lon transform c.1 c.2
  let latLonCorner ← project_to_lat_lon transform cc.1 cc.2
  return { create_scrip (nx * ny) 4 2 "degrees" with
    center_lat := latLon.1.flatten
    center_lon := latLon.2.flatten
    dims := [nx, ny]
    imask := List.replicate (nx * ny) 1
    corner_lat := unwrap_corners latLonCorner.1
    corner_lon := unwrap_corners latLonCorner.2
    history := history }

theorem interp_extrap_corner_length (c : List ℚ) :
    (interp_extrap_corner c).length = c.length + 1 := by
  simp [interp_extrap_corner]

theorem interp_extrap_corner_getD (c : List ℚ) (i : Nat) (hi : i < c.length + 1) :
    (interp_extrap_corner c).getD i 0 =
      if i = 0 then 3/2 * c.getD 0 0 - 1/2 * c.getD 1 0
      else if i = c.length then
        3/2 * c.getD (c.length - 1) 0 - 1/2 * c.getD (c.length - 2) 0
      else 1/2 * (c.getD (i - 1) 0 + c.getD i 0) := by
  simp only [interp_extrap_corner, List.getD_eq_getElem?_getD, List.getElem?_map,
    List.getElem?_range hi]
  rfl

/-- Claim C2: for at least two strictly monotonic centers, the corner
interpolator returns N+1 corners with interior corner i the exact
midpoint of centers i-1 and i, and the two boundary corners linearly
extrapolated from the outermost interval. -/
theorem interp_extrap_corner_spec (c : List ℚ) (h2 : 2 ≤ c.length)
    (hmono : List.Chain' (· < ·) c ∨ List.Chain' (· > ·) c) :
    (interp_extrap_corner c).length = c.length + 1
    ∧ (∀ i, 1 ≤ i → i ≤ c.length - 1 →
        (interp_extrap_corner c).getD i 0 = 1/2 * (c.getD (i - 1) 0 + c.getD i 0))
    ∧ (interp_extrap_corner c).getD 0 0 = 3/2 * c.getD 0 0 - 1/2 * c.getD 1 0
    ∧ (interp_extrap_corner c).getD c.length 0
        = 3/2 * c.getD (c.length - 1) 0 - 1/2 * c.getD (c.length - 2) 0 := by
  refine ⟨interp_extrap_corner_length c, ?_, ?_, ?_⟩
  · intro i h1 hle
    rw [interp_extrap_corner_getD c i (by omega)]
    have hne0 : i ≠ 0 := by omega
    have hnen : i ≠ c.length := by omega
    simp [hne0, hnen]
  · rw [interp_extrap_corner_getD c 0 (by omega)]
    simp
  · rw [interp_extrap_corner_getD c c.length (by omega)]
    have hne0 : c.length ≠ 0 := by omega
    simp [hne0]

theorem interp_extrap_corner_spec_witness :
    interp_extrap_corner [0, 10, 20] = [-5, 5, 15, 25]
    ∧ interp_extrap_corner [0, 10] = [-5, 5, 15]
    ∧ (interp_extrap_corner [0, 10, 20]).getD 1 0 = 1/2 * ((0 : ℚ) + 10) := by
  refine ⟨?_, ?_, ?_⟩
  · simp [interp_extrap_corner, List.range_succ]
    norm_num
  · simp [interp_extrap_corner, List.range_succ]
    norm_num
  · have h := (interp_extrap_corner_spec [0, 10, 20] (by norm_num)
      (Or.inl (by norm_num))).2.1 1 (by norm_num) (by norm_num)
    simpa using h

theorem unwrap_corners_length (f : List (List ℚ)) :
    (unwrap_corners f).length = (f.length - 1) * ((f.getD 0 []).length - 1) := by
  simp [unwrap_corners]

/-- Claim C3: unwrapping an (ny+1) x (nx+1) corner lattice yields ny*nx rows;
the row for cell (r, c) is exactly the four lattice entries at (r, c),
(r, c+1), (r+1, c+1), (r+1, c), copied with no arithmetic. -/
theorem unwrap_corners_spec (f : List (List ℚ)) (ny nx : Nat)
    (hrows : f.length = ny + 1) (hcols : ∀ row ∈ f, row.length = nx + 1) :
    (unwrap_corners f).length = ny * nx
    ∧ ∀ r c, r < ny → c < nx →
        (unwrap_corners f).getD (r * nx + c) []
          = [(f.getD r []).getD c 0, (f.getD r []).getD (c + 1) 0,
             (f.getD (r + 1) []).getD (c + 1) 0, (f.getD (r + 1) []).getD c 0] := by
  have hhead : (f.getD 0 []).length = nx + 1 := by
    have hne : f ≠ [] := by
      intro h
      rw [h] at hrows
      simp at hrows
    have h0 : f.getD 0 [] = f.head hne := by
      cases f with
      | nil => exact absurd rfl hne
      | cons a l => rfl
    rw [h0]
    exact hcols _ (List.head_mem hne)
  constructor
  · rw [unwrap_corners_length, hrows, hhead]
    simp
  · intro r c hr hc
    have hq : r * nx + c < ny * nx := by
      have h1 : r * nx + c < (r + 1) * nx := by
        rw [Nat.succ_mul]
        omega
      have h2 : (r + 1) * nx ≤ ny * nx := Nat.mul_le_mul_right nx hr
      omega
    have hq' : r * nx + c < (f.length - 1) * ((f.getD 0 []).length - 1) := by
      rw [hrows, hhead]
      simpa using hq
    have hdiv : (r * nx + c) / ((f.getD 0 []).length - 1) = r := by
      rw [hhead]
      simp only [Nat.add_sub_cancel]
      rw [Nat.mul_comm r nx, Nat.mul_add_div (by omega), Nat.div_eq_of_lt hc]
      omega
    have hmod : (r * nx + c) % ((f.getD 0 []).length - 1) = c := by
      rw [hhead]
      simp only [Nat.add_sub_cancel]
      rw [Nat.mul_comm r nx, Nat.mul_add_mod, Nat.mod_eq_of_lt hc]
    simp only [List.getD_eq_getElem?_getD] at hq' hdiv hmod ⊢
    simp only [unwrap_corners, List.getD_eq_getElem?_getD, List.getElem?_map,
      List.getElem?_range hq', Option.map_some', Option.getD_some, hdiv, hmod]

theorem unwrap_corners_spec_witness :
    (unwrap_corners [[1, 2], [3, 4]]).getD 0 []
      = [([[(1 : ℚ), 2], [3, 4]].getD 0 []).getD 0 0,
         ([[(1 : ℚ), 2], [3, 4]].getD 0 []).getD 1 0,
         ([[(1 : ℚ), 2], [3, 4]].getD 1 []).getD 1 0,
         ([[(1 : ℚ), 2], [3, 4]].getD 1 []).getD 0 0] := by
  have h := (unwrap_corners_spec [[1, 2], [3, 4]] 1 1 (by simp)
    (by intro row hrow; fin_cases hrow <;> simp)).2 0 0
    (by omega) (by omega)
  simpa using h

theorem npGet_of_nonneg {α : Type} (a : List α) (i : Int) (h0 : 0 ≤ i) :
    npGet a i = a[i.toNat]? := by
  unfold npGet
  have hlt : ¬ i < 0 := by omega
  simp [hlt, h0]

theorem npGet_of_neg {α : Type} (a : List α) (i : Int) (hneg : i < 0)
    (hge : 0 ≤ (a.length : Int) + i) :
    npGet a i = a[((a.length : Int) + i).toNat]? := by
  unfold npGet
  simp [hneg, hge]

theorem npGet_none_of_too_neg {α : Type} (a : List α) (i : Int) (hneg : i < 0)
    (hlt : (a.length : Int) + i < 0) : npGet a i = none := by
  unfold npGet
  have h : ¬ (0 : Int) ≤ (a.length : Int) + i := by omega
  simp [hneg, h]

/-- Claim C1: the reconstructed corner at output position p is the vertex at
local index min(nEdgesOnCell-1, p) of the cell vertex-id list, with the
global id converted from 1-based to 0-based; so for a cell with k <
maxVertices edges, positions k..maxVertices-1 repeat position k-1
exactly, and for k = maxVertices position p reads local slot p itself. -/
theorem mesh_corner_reconstruction (latVertex lonVertex : List ℚ)
    (cellVertices : List Int) (k maxVertices p : Nat)
    (hp : p < maxVertices) (hk1 : 1 ≤ k) (hkm : k ≤ maxVertices)
    (hlen : cellVertices.length = maxVertices)
    (hlon : lonVertex.length = latVertex.length)
    (hvalid : ∀ v ∈ cellVertices, 1 ≤ v ∧ v ≤ (latVertex.length : Int)) :
    reconstruct_corner latVertex lonVertex cellVertices (k : Int) p
      = some (latVertex.getD ((cellVertices.getD (min (k - 1) p) 0).toNat - 1) 0,
              lonVertex.getD ((cellVertices.getD (min (k - 1) p) 0).toNat - 1) 0)
    ∧ (k ≤ p →
        reconstruct_corner latVertex lonVertex cellVertices (k : Int) p
          = reconstruct_corner latVertex lonVertex cellVertices (k : Int) (k - 1))
    ∧ (k = maxVertices →
        reconstruct_corner latVertex lonVertex cellVertices (k : Int) p
          = some (latVertex.getD ((cellVertices.getD p 0).toNat - 1) 0,
                  lonVertex.getD ((cellVertices.getD p 0).toNat - 1) 0)) := by
  have main : ∀ q : Nat, q < maxVertices →
      reconstruct_corner latVertex lonVertex cellVertices (k : Int) q
        = some (latVertex.getD ((cellVertices.getD (min (k - 1) q) 0).toNat - 1) 0,
                lonVertex.getD ((cellVertices.getD (min (k - 1) q) 0).toNat - 1) 0) := by
    intro q hq
    have hjcast : min ((k : Int) - 1) (q : Int) = ((min (k - 1) q : Nat) : Int) := by
      omega
    have hjlt : min (k - 1) q < cellVertices.length := by
      rw [hlen]
      omega
    have h1 : npGet cellVertices (min ((k : Int) - 1) (q : Int))
        = some (cellVertices.getD (min (k - 1) q) 0) := by
      rw [hjcast, npGet_of_nonneg _ _ (by omega)]
      simp only [Int.toNat_natCast]
      rw [List.getElem?_eq_getElem hjlt, List.getD_eq_getElem _ _ hjlt]
    have hmem : cellVertices.getD (min (k - 1) q) 0 ∈ cellVertices := by
      rw [List.getD_eq_getElem _ _ hjlt]
      exact List.getElem_mem hjlt
    obtain ⟨hv1, hv2⟩ := hvalid _ hmem
    set vid := cellVertices.getD (min (k - 1) q) 0 with hvid
    have hidx : (vid - 1).toNat = vid.toNat - 1 := by omega
    have hlt2 : vid.toNat - 1 < latVertex.length := by omega
    have hlt3 : vid.toNat - 1 < lonVertex.length := by omega
    have h2 : npGet latVertex (vid - 1) = some (latVertex.getD (vid.toNat - 1) 0) := by
      rw [npGet_of_nonneg _ _ (by omega), hidx,
        List.getElem?_eq_getElem hlt2, List.getD_eq_getElem _ _ hlt2]
    have h3 : npGet lonVertex (vid - 1) = some (lonVertex.getD (vid.toNat - 1) 0) := by
      rw [npGet_of_nonneg _ _ (by omega), hidx,
        List.getElem?_eq_getElem hlt3, List.getD_eq_getElem _ _ hlt3]
    simp [reconstruct_corner, h1, h2, h3]
  refine ⟨main p hp, ?_, ?_⟩
  · intro hkp
    rw [main p hp, main (k - 1) (by omega)]
    have he : min (k - 1) p = min (k - 1) (k - 1) := by omega
    rw [he]
  · intro hkmax
    rw [main p hp]
    have he : min (k - 1) p = p := by omega
    rw [he]

theorem mesh_corner_reconstruction_witness :
    reconstruct_corner [1, 2, 3] [4, 5, 6] [2, 3, 1] ((2 : Nat) : Int) 2
      = reconstruct_corner [1, 2, 3] [4, 5, 6] [2, 3, 1] ((2 : Nat) : Int) 1
    ∧ reconstruct_corner [1, 2, 3] [4, 5, 6] [2, 3, 1] ((2 : Nat) : Int) 2
      = some (3, 6) := by
  have h := mesh_corner_reconstruction [1, 2, 3] [4, 5, 6] [2, 3, 1] 2 3 2
    (by omega) (by omega) (by omega) (by simp) (by simp)
    (by intro v hv; fin_cases hv <;> simp)
  refine ⟨h.2.1 (by omega), ?_⟩
  rw [h.1]
  norm_num [Int.toNat]

theorem mesh_to_scrip_eq_some (m : MpasMesh) (argv : List String) (F : ScripFile)
    (h : mesh_to_scrip m argv = some F) :
    ∃ corners,
      mapOption (fun cell =>
          mapOption (fun p =>
              reconstruct_corner m.latVertex m.lonVertex
                (m.verticesOnCell.getD cell []) (m.nEdgesOnCell.getD cell 0) p)
            (List.range m.maxVertices))
        (List.range m.latCell.length) = some corners
      ∧ F = { create_scrip m.latCell.length m.maxVertices 1 "radians" with
          grid_area := some (m.areaCell.map (fun a => a / m.sphereRadius ^ 2))
          area_units := some "radian^2"
          center_lat := m.latCell
          center_lon := m.lonCell
          dims := [m.latCell.length]
          imask := List.replicate m.latCell.length 1
          corner_lat := corners.map (fun row => row.map Prod.fst)
          corner_lon := corners.map (fun row => row.map Prod.snd)
          history := new_history m.history argv } := by
  simp only [mesh_to_scrip, bind, Option.bind_eq_some, pure, Option.some.injEq] at h
  obtain ⟨corners, hmo, hrec⟩ := h
  exact ⟨corners, hmo, hrec.symm⟩

/-- Claim C8: the exported per-cell area is the source area divided by the
square of the sphere radius. -/
theorem mesh_area_conversion (m : MpasMesh) (argv : List String) (F : ScripFile)
    (h : mesh_to_scrip m argv = some F) :
    F.grid_area = some (m.areaCell.map (fun a => a / m.sphereRadius ^ 2))
    ∧ ∀ i, i < m.areaCell.length →
        (F.grid_area.getD []).getD i 0 = m.areaCell.getD i 0 / m.sphereRadius ^ 2 := by
  obtain ⟨corners, hmo, hF⟩ := mesh_to_scrip_eq_some m argv F h
  subst hF
  refine ⟨rfl, ?_⟩
  intro i hi
  simp only [Option.getD_some, List.getD_eq_getElem?_getD, List.getElem?_map]
  rw [List.getElem?_eq_getElem hi]
  simp

theorem mesh_area_conversion_witness :
    ((((mesh_to_scrip areaMesh []).getD default).grid_area.getD []).getD 0 0 = 1)
    ∧ (mesh_to_scrip areaMesh []).isSome = true := by
  have hs : (mesh_to_scrip areaMesh []).isSome = true := by decide
  have hF : mesh_to_scrip areaMesh []
      = some ((mesh_to_scrip areaMesh []).getD default) := by
    cases hmo : mesh_to_scrip areaMesh [] with
    | none => rw [hmo] at hs; simp at hs
    | some F => simp
  refine ⟨?_, hs⟩
  have h := (mesh_area_conversion areaMesh [] _ hF).2 0 (by simp [areaMesh])
  rw [h]
  norm_num [areaMesh]

/-- Claim C5: when the source carries a history attribute the written history
is the old text, a newline, and the space-joined command line; but when
the source has none, the code stores the raw argument list itself
(sys.argv), not the space-joined command-line string. -/
theorem history_attribute_behavior :
    new_history none ["prog", "mesh.nc"] = AttrValue.strList ["prog", "mesh.nc"]
    ∧ new_history none ["prog", "mesh.nc"] ≠ AttrValue.str "prog mesh.nc"
    ∧ new_history (some "old hist") ["prog", "mesh.nc"]
        = AttrValue.str "old hist\nprog mesh.nc" := by
  refine ⟨rfl, by decide, by decide⟩

theorem isPrefixOf_iff_append (needle hay : List Char) :
    needle.isPrefixOf hay = true ↔ ∃ t, needle ++ t = hay := by
  induction needle generalizing hay with
  | nil => simp [List.isPrefixOf]
  | cons a as ih =>
    cases hay with
    | nil => simp [List.isPrefixOf]
    | cons b bs =>
      simp only [List.isPrefixOf, Bool.and_eq_true, beq_iff_eq, ih]
      constructor
      · rintro ⟨hab, t, ht⟩
        exact ⟨t, by rw [List.cons_append, hab, ht]⟩
      · rintro ⟨t, ht⟩
        simp only [List.cons_append, List.cons.injEq] at ht
        exact ⟨ht.1, t, ht.2⟩

theorem strContains_iff (needle hay : List Char) :
    strContains needle hay = true ↔ ∃ pre post, hay = pre ++ needle ++ post := by
  induction hay with
  | nil =>
    simp only [strContains, List.isEmpty_iff]
    constructor
    · intro h
      exact ⟨[], [], by simp [h]⟩
    · rintro ⟨pre, post, hsplit⟩
      rcases List.append_eq_nil.mp (List.append_eq_nil.mp hsplit.symm).1 with ⟨-, h2⟩
      exact h2
  | cons c rest ih =>
    simp only [strContains, Bool.or_eq_true, ih, isPrefixOf_iff_append]
    constructor
    · rintro (⟨t, ht⟩ | ⟨pre, post, hsplit⟩)
      · exact ⟨[], t, by simp [ht]⟩
      · exact ⟨c :: pre, post, by simp [hsplit]⟩
    · rintro ⟨pre, post, hsplit⟩
      cases pre with
      | nil =>
        exact Or.inl ⟨post, by simpa using hsplit.symm⟩
      | cons c0 pre0 =>
        simp only [List.cons_append, List.cons.injEq] at hsplit
        exact Or.inr ⟨pre0, post, hsplit.2⟩

/-- Claim C10: the lat-lon reader tags the grid degrees exactly when the
latitude variable units string contains the substring degree; every
other units string (such as meters) silently becomes radians, and the
longitude variable units string is never consulted. -/
theorem latlon_units_detection (lat lon : List ℚ)
    (latUnits lonUnits lonUnits2 : String)
    (src : Option String) (argv : List String) :
    ((latlon_read lat lon latUnits lonUnits src argv).units = "degrees"
        ↔ ∃ pre post, latUnits.toList = pre ++ "degree".toList ++ post)
    ∧ ((latlon_read lat lon latUnits lonUnits src argv).units = "degrees"
        ∨ (latlon_read lat lon latUnits lonUnits src argv).units = "radians")
    ∧ (latlon_read lat lon latUnits lonUnits src argv).units
        = (latlon_read lat lon latUnits lonUnits2 src argv).units
    ∧ (latlon_read lat lon "meters" lonUnits src argv).units = "radians" := by
  have hu : ∀ lu : String, (latlon_read lat lon lu lonUnits src argv).units
      = if strContains "degree".toList lu.toList then "degrees"
        else "radians" := fun _ => rfl
  refine ⟨?_, ?_, rfl, ?_⟩
  · rw [hu latUnits]
    by_cases hb : strContains "degree".toList latUnits.toList = true
    · rw [if_pos hb]
      exact iff_of_true rfl ((strContains_iff _ _).mp hb)
    · rw [if_neg hb]
      exact iff_of_false (by decide) (fun hex => hb ((strContains_iff _ _).mpr hex))
  · rw [hu latUnits]
    by_cases hb : strContains "degree".toList latUnits.toList = true
    · exact Or.inl (by rw [if_pos hb])
    · exact Or.inr (by rw [if_neg hb])
  · rw [hu "meters", if_neg (by decide)]

theorem latlon_units_detection_witness :
    (latlon_read [] [] "meters" "degrees east" none []).units = "radians" :=
  (latlon_units_detection [] [] "meters" "degrees east" "x" none []).2.2.2

/-- Claim C6 counterexample: exporting a mesh containing vertex id 0 does not
fail; the id-0 slot silently receives the coordinates of the last
vertex, because the 0-based index -1 wraps around. -/
theorem mesh_zero_id_export_succeeds :
    (mesh_to_scrip zeroIdMesh ["cmd"]).isSome = true
    ∧ (mesh_to_scrip zeroIdMesh ["cmd"]).map (fun F => F.corner_lat)
        = some [[10, 20, 20]]
    ∧ (mesh_to_scrip zeroIdMesh ["cmd"]).map (fun F => F.corner_lon)
        = some [[30, 40, 40]] := by
  refine ⟨by decide, ?_, ?_⟩ <;>
    simp [mesh_to_scrip, zeroIdMesh, mapOption, reconstruct_corner, npGet,
      List.range_succ]

/-- Claim C6 amended: a vertex id of 0 does not make the export fail; after
the 1-based-to-0-based conversion it becomes index -1, which wraps
around and silently substitutes the coordinates of the last vertex.
Only an id whose 0-based index falls below -nVertex or at or above
nVertex makes the lookup fail. -/
theorem mesh_vertex_id_resolution (latVertex lonVertex : List ℚ)
    (cellVertices : List Int) (nEdges : Int) (p : Nat) (vid : Int)
    (hvid : npGet cellVertices (min (nEdges - 1) (p : Int)) = some vid)
    (hlon : lonVertex.length = latVertex.length) :
    (vid = 0 → latVertex ≠ [] →
      reconstruct_corner latVertex lonVertex cellVertices nEdges p
        = some (latVertex.getD (latVertex.length - 1) 0,
                lonVertex.getD (lonVertex.length - 1) 0))
    ∧ ((vid - 1 < -(latVertex.length : Int)
          ∨ (latVertex.length : Int) ≤ vid - 1) →
      reconstruct_corner latVertex lonVertex cellVertices nEdges p = none) := by
  constructor
  · intro hzero hne
    subst hzero
    have hlen : 1 ≤ latVertex.length := by
      cases latVertex with
      | nil => exact absurd rfl hne
      | cons a l => simp
    have h2 : npGet latVertex (-1) = some (latVertex.getD (latVertex.length - 1) 0) := by
      rw [npGet_of_neg _ _ (by omega) (by omega)]
      have hidx : (((latVertex.length : Int)) + (-1)).toNat = latVertex.length - 1 := by
        omega
      rw [hidx, List.getElem?_eq_getElem (by omega), List.getD_eq_getElem _ _ (by omega)]
    have h3 : npGet lonVertex (-1) = some (lonVertex.getD (lonVertex.length - 1) 0) := by
      rw [npGet_of_neg _ _ (by omega) (by omega)]
      have hidx : (((lonVertex.length : Int)) + (-1)).toNat = lonVertex.length - 1 := by
        omega
      rw [hidx, List.getElem?_eq_getElem (by omega), List.getD_eq_getElem _ _ (by omega)]
    simp [reconstruct_corner, hvid, h2, h3]
  · intro hout
    have h2 : npGet latVertex (vid - 1) = none := by
      rcases hout with hlow | hhigh
      · exact npGet_none_of_too_neg _ _ (by omega) (by omega)
      · have hnn : (0 : Int) ≤ vid - 1 := by omega
        rw [npGet_of_nonneg _ _ hnn]
        exact List.getElem?_eq_none (by omega)
    simp [reconstruct_corner, hvid, h2]

theorem mesh_vertex_id_resolution_witness :
    reconstruct_corner [10, 20] [30, 40] [1, 0, 2] 3 1 = some (20, 40)
    ∧ reconstruct_corner [10, 20] [30, 40] [1, 7, 2] 3 1 = none := by
  constructor
  · have h := (mesh_vertex_id_resolution [10, 20] [30, 40] [1, 0, 2] 3 1 0
      (by decide) (by simp)).1 rfl (by simp)
    rw [h]
    norm_num
  · exact (mesh_vertex_id_resolution [10, 20] [30, 40] [1, 7, 2] 3 1 7
      (by decide) (by simp)).2 (by norm_num)

theorem proj_to_scrip_eq_some (t : ℚ → ℚ → Option (ℚ × ℚ)) (x y xc yc : List ℚ)
    (hist : AttrValue) (F : ScripFile)
    (h : proj_to_scrip t x y xc yc hist = some F) :
    ∃ latLon latLonCorner,
      project_to_lat_lon t (meshgrid x y).1 (meshgrid x y).2 = some latLon
      ∧ project_to_lat_lon t (meshgrid xc yc).1 (meshgrid xc yc).2 = some latLonCorner
      ∧ F = { create_scrip (x.length * y.length) 4 2 "degrees" with
          center_lat := latLon.1.flatten
          center_lon := latLon.2.flatten
          dims := [x.length, y.length]
          imask := List.replicate (x.length * y.length) 1
          corner_lat := unwrap_corners latLonCorner.1
          corner_lon := unwrap_corners latLonCorner.2
          history := hist } := by
  simp only [proj_to_scrip, bind, Option.bind_eq_some, pure, Option.some.injEq] at h
  obtain ⟨latLon, h1, latLonC, h2, hrec⟩ := h
  exact ⟨latLon, latLonC, h1, h2, hrec.symm⟩

theorem replicate_one_getD (n i : Nat) (h : i < n) :
    (List.replicate n (1 : Int)).getD i 0 = 1 := by
  rw [List.getD_eq_getElem?_getD, List.getElem?_replicate_of_lt h]
  rfl

/-- Claim C9: for all three descriptor types, every written grid_imask entry is
1 and the four center and corner coordinate variables carry the same
units tag, equal to the grid native unit: radians for a mesh, the
descriptor units for a lat-lon grid, degrees for a projected grid. -/
theorem scrip_imask_and_units :
    (∀ (m : MpasMesh) (argv : List String) (F : ScripFile),
        mesh_to_scrip m argv = some F →
        (∀ i, i < F.imask.length → F.imask.getD i 0 = 1)
        ∧ F.imask.length = F.grid_size
        ∧ F.center_lat_units = "radians" ∧ F.center_lon_units = "radians"
        ∧ F.corner_lat_units = "radians" ∧ F.corner_lon_units = "radians")
    ∧ (∀ d : LatLonGridDescriptor,
        (∀ i, i < d.to_scrip.imask.length → d.to_scrip.imask.getD i 0 = 1)
        ∧ d.to_scrip.imask.length = d.to_scrip.grid_size
        ∧ d.to_scrip.center_lat_units = d.units
        ∧ d.to_scrip.center_lon_units = d.units
        ∧ d.to_scrip.corner_lat_units = d.units
        ∧ d.to_scrip.corner_lon_units = d.units)
    ∧ (∀ (t : ℚ → ℚ → Option (ℚ × ℚ)) (x y xc yc : List ℚ)
        (hist : AttrValue) (F : ScripFile),
        proj_to_scrip t x y xc yc hist = some F →
        (∀ i, i < F.imask.length → F.imask.getD i 0 = 1)
        ∧ F.imask.length = F.grid_size
        ∧ F.center_lat_units = "degrees" ∧ F.center_lon_units = "degrees"
        ∧ F.corner_lat_units = "degrees" ∧ F.corner_lon_units = "degrees") := by
  refine ⟨?_, ?_, ?_⟩
  · intro m argv F h
    obtain ⟨corners, hmo, hF⟩ := mesh_to_scrip_eq_some m argv F h
    subst hF
    refine ⟨?_, by simp [create_scrip], rfl, rfl, rfl, rfl⟩
    intro i hi
    simp only [List.length_replicate] at hi
    exact replicate_one_getD _ _ hi
  · intro d
    refine ⟨?_, by simp [LatLonGridDescriptor.to_scrip, create_scrip], rfl, rfl,
      rfl, rfl⟩
    intro i hi
    simp only [LatLonGridDescriptor.to_scrip, List.length_replicate] at hi
    have h1 : d.to_scrip.imask = List.replicate (d.lat.length * d.lon.length) 1 := rfl
    rw [h1]
    exact replicate_one_getD _ _ hi
  · intro t x y xc yc hist F h
    obtain ⟨latLon, latLonC, h1, h2, hF⟩ := proj_to_scrip_eq_some t x y xc yc hist F h
    subst hF
    refine ⟨?_, by simp [create_scrip], rfl, rfl, rfl, rfl⟩
    intro i hi
    simp only [List.length_replicate] at hi
    exact replicate_one_getD _ _ hi

theorem scrip_imask_and_units_witness :
    ((mesh_to_scrip areaMesh []).getD default).center_lat_units = "radians"
    ∧ (LatLonGridDescriptor.to_scrip
        (latlon_read [0] [0] "degrees" "x" none [])).imask.getD 0 0 = 1
    ∧ ((proj_to_scrip (fun a b => some (b, a)) [1] [2] [0, 2] [1, 3]
        (AttrValue.str "h")).getD default).corner_lat_units = "degrees" := by
  have hs1 : (mesh_to_scrip areaMesh []).isSome = true := by decide
  have hF1 : mesh_to_scrip areaMesh []
      = some ((mesh_to_scrip areaMesh []).getD default) := by
    cases hmo : mesh_to_scrip areaMesh [] with
    | none => rw [hmo] at hs1; simp at hs1
    | some F => simp
  have hs2 : (proj_to_scrip (fun a b => some (b, a)) [1] [2] [0, 2] [1, 3]
      (AttrValue.str "h")).isSome = true := by decide
  have hF2 : proj_to_scrip (fun a b => some (b, a)) [1] [2] [0, 2] [1, 3]
        (AttrValue.str "h")
      = some ((proj_to_scrip (fun a b => some (b, a)) [1] [2] [0, 2] [1, 3]
        (AttrValue.str "h")).getD default) := by
    cases hmo : proj_to_scrip (fun a b => some (b, a)) [1] [2] [0, 2] [1, 3]
        (AttrValue.str "h") with
    | none => rw [hmo] at hs2; simp at hs2
    | some F => simp
  refine ⟨(scrip_imask_and_units.1 areaMesh [] _ hF1).2.2.1, ?_, ?_⟩
  · exact (scrip_imask_and_units.2.1
      (latlon_read [0] [0] "degrees" "x" none [])).1 0 (by decide)
  · exact (scrip_imask_and_units.2.2 (fun a b => some (b, a)) [1] [2] [0, 2]
      [1, 3] (AttrValue.str "h") _ hF2).2.2.2.2.1

/-- Claim C4: exporting the lat-lon grid with center latitudes 0, 10, 20 and
center longitudes 0, 10 gives grid_size 6, grid_dims [2, 3] in
[nLon, nLat] order, 4 corners per cell, rank 2, and six polygons whose
corners are drawn from latCorner [-5, 5, 15, 25] and lonCorner
[-5, 5, 15] in the fixed counterclockwise order. -/
theorem latlon_end_to_end :
    (LatLonGridDescriptor.to_scrip
        (latlon_read [0, 10, 20] [0, 10] "degrees" "degrees" none
          ["cmd"])).grid_size = 6
    ∧ (LatLonGridDescriptor.to_scrip
        (latlon_read [0, 10, 20] [0, 10] "degrees" "degrees" none
          ["cmd"])).dims = [2, 3]
    ∧ (LatLonGridDescriptor.to_scrip
        (latlon_read [0, 10, 20] [0, 10] "degrees" "degrees" none
          ["cmd"])).grid_corners = 4
    ∧ (LatLonGridDescriptor.to_scrip
        (latlon_read [0, 10, 20] [0, 10] "degrees" "degrees" none
          ["cmd"])).grid_rank = 2
    ∧ (latlon_read [0, 10, 20] [0, 10] "degrees" "degrees" none
        ["cmd"]).latCorner = [-5, 5, 15, 25]
    ∧ (latlon_read [0, 10, 20] [0, 10] "degrees" "degrees" none
        ["cmd"]).lonCorner = [-5, 5, 15]
    ∧ (LatLonGridDescriptor.to_scrip
        (latlon_read [0, 10, 20] [0, 10] "degrees" "degrees" none
          ["cmd"])).corner_lat
      = [[-5, -5, 5, 5], [-5, -5, 5, 5], [5, 5, 15, 15], [5, 5, 15, 15],
         [15, 15, 25, 25], [15, 15, 25, 25]]
    ∧ (LatLonGridDescriptor.to_scrip
        (latlon_read [0, 10, 20] [0, 10] "degrees" "degrees" none
          ["cmd"])).corner_lon
      = [[-5, 5, 5, -5], [5, 15, 15, 5], [-5, 5, 5, -5], [5, 15, 15, 5],
         [-5, 5, 5, -5], [5, 15, 15, 5]] := by
  refine ⟨rfl, rfl, rfl, rfl, ?_, ?_, ?_, ?_⟩ <;>
    simp [LatLonGridDescriptor.to_scrip, latlon_read, interp_extrap_corner,
      meshgrid, unwrap_corners, List.range_succ] <;>
    norm_num

theorem mapOption_eq_none_of_mem {α β : Type} (f : α → Option β) (l : List α)
    (a : α) (ha : a ∈ l) (hf : f a = none) : mapOption f l = none := by
  induction l with
  | nil => cases ha
  | cons b bs ih =>
    rcases List.mem_cons.mp ha with h | h
    · subst h
      simp [mapOption, hf]
    · cases hfb : f b <;> simp [mapOption, hfb, ih h]

theorem mapOption_eq_some_getElem? {α β : Type} (f : α → Option β) (l : List α)
    (l' : List β) (h : mapOption f l = some l') :
    l'.length = l.length
    ∧ ∀ (i : Nat) (a : α), l[i]? = some a
        → ∃ b, l'[i]? = some b ∧ f a = some b := by
  induction l generalizing l' with
  | nil =>
    simp only [mapOption, Option.some.injEq] at h
    subst h
    refine ⟨rfl, ?_⟩
    intro i a ha
    simp at ha
  | cons x xs ih =>
    simp only [mapOption, bind, Option.bind_eq_some, pure, Option.some.injEq] at h
    obtain ⟨b, hb, bs, hbs, hl⟩ := h
    subst hl
    obtain ⟨hlen, hpt⟩ := ih bs hbs
    refine ⟨by simp [hlen], ?_⟩
    intro i a ha
    cases i with
    | zero =>
      simp only [List.getElem?_cons_zero, Option.some.injEq] at ha
      subst ha
      exact ⟨b, by simp, hb⟩
    | succ n =>
      simp only [List.getElem?_cons_succ] at ha ⊢
      exact hpt n a ha

/-- Claim C7: if any point of the batch is rejected by the projection
transform, the whole projection call fails with none, and when the call
succeeds every returned latitude and longitude is exactly the value the
transform produced for that point: nothing is clamped or replaced by a
sentinel. -/
theorem projection_failure_propagation (t : ℚ → ℚ → Option (ℚ × ℚ))
    (X Y : List (List ℚ)) :
    (∀ (r c : Nat) (x y : ℚ), (X[r]?).bind (fun row => row[c]?) = some x →
        (Y[r]?).bind (fun row => row[c]?) = some y →
        t x y = none →
        project_to_lat_lon t X Y = none)
    ∧ (∀ Lat Lon, project_to_lat_lon t X Y = some (Lat, Lon) →
        ∀ (r c : Nat) (x y : ℚ), (X[r]?).bind (fun row => row[c]?) = some x →
          (Y[r]?).bind (fun row => row[c]?) = some y →
          ∃ lon lat, t x y = some (lon, lat)
            ∧ (Lat[r]?).bind (fun row => row[c]?) = some lat
            ∧ (Lon[r]?).bind (fun row => row[c]?) = some lon) := by
  constructor
  · intro r c x y hx hy ht
    rw [Option.bind_eq_some] at hx hy
    obtain ⟨xrow, hxr, hxc⟩ := hx
    obtain ⟨yrow, hyr, hyc⟩ := hy
    have hzr : (X.zip Y)[r]? = some (xrow, yrow) :=
      List.getElem?_zip_eq_some.mpr ⟨hxr, hyr⟩
    have hzc : (xrow.zip yrow)[c]? = some (x, y) :=
      List.getElem?_zip_eq_some.mpr ⟨hxc, hyc⟩
    have hrownone : mapOption (fun p => t p.1 p.2) (xrow.zip yrow) = none :=
      mapOption_eq_none_of_mem _ _ (x, y) (List.getElem?_mem hzc) ht
    have houter : mapOption (fun rowPair =>
        mapOption (fun p => t p.1 p.2) (rowPair.1.zip rowPair.2)) (X.zip Y)
        = none :=
      mapOption_eq_none_of_mem _ _ (xrow, yrow) (List.getElem?_mem hzr) hrownone
    simp [project_to_lat_lon, houter]
  · intro Lat Lon hsome r c x y hx hy
    rw [Option.bind_eq_some] at hx hy
    obtain ⟨xrow, hxr, hxc⟩ := hx
    obtain ⟨yrow, hyr, hyc⟩ := hy
    have hzr : (X.zip Y)[r]? = some (xrow, yrow) :=
      List.getElem?_zip_eq_some.mpr ⟨hxr, hyr⟩
    have hzc : (xrow.zip yrow)[c]? = some (x, y) :=
      List.getElem?_zip_eq_some.mpr ⟨hxc, hyc⟩
    simp only [project_to_lat_lon, bind, Option.bind_eq_some, pure,
      Option.some.injEq] at hsome
    obtain ⟨lonLat, hmo, heq⟩ := hsome
    have hLat' : Lat = lonLat.map (fun row => row.map Prod.snd) :=
      (congrArg Prod.fst heq).symm
    have hLon' : Lon = lonLat.map (fun row => row.map Prod.fst) :=
      (congrArg Prod.snd heq).symm
    obtain ⟨rowOut, hrowOut, hrowEq⟩ :=
      (mapOption_eq_some_getElem? _ _ _ hmo).2 r (xrow, yrow) hzr
    obtain ⟨b, hbOut, hbEq⟩ :=
      (mapOption_eq_some_getElem? _ _ _ hrowEq).2 c (x, y) hzc
    refine ⟨b.1, b.2, by simpa using hbEq, ?_, ?_⟩
    · rw [hLat']
      simp only [List.getElem?_map, hrowOut, Option.map_some', Option.some_bind,
        List.getElem?_map, hbOut]
    · rw [hLon']
      simp only [List.getElem?_map, hrowOut, Option.map_some', Option.some_bind,
        List.getElem?_map, hbOut]

theorem projection_failure_propagation_witness :
    project_to_lat_lon (fun x y => if x + y = 0 then none else some (x, y))
      [[1, -1]] [[-1, 1]] = none := by
  refine (projection_failure_propagation _ [[1, -1]] [[-1, 1]]).1 0 0 1 (-1)
    ?_ ?_ ?_
  · simp
  · simp
  · norm_num

end MpasGrid
